import Mathlib

set_option maxRecDepth 40000

/-!
Verification development for the Zoro product-scraper pipeline
(src/ZORO/main.py).

The Python source is shallowly embedded here:

* Pure string and scoring logic (slug-free parts of `best_score` and the
  rapidfuzz similarity measures it calls) becomes executable Lean
  functions over `List Char`, with scores as exact rationals.  The real
  rapidfuzz library (an unpinned dependency; any install satisfying the
  declared Python 3.11 requirement resolves to rapidfuzz >= 2.0) computes
  IEEE doubles and applies no string preprocessing because `best_score`
  passes no `processor`; the rational model reproduces those values
  exactly.
* Network and browser I/O (requests, Playwright page behaviour, image
  downloads) are oracle parameters: functions supplying the value the
  corresponding call would have returned.
* BeautifulSoup trees are modelled by an explicit `Node` tree; the
  selector operations used by `parse_product_data` are implemented over
  that tree (document-order traversal, attribute lookup, text
  collection), so the HTML-string-to-tree parse is the library boundary.
-/

/-! ### Configuration constants (src/ZORO/main.py lines 52-57) -/

def BASE_URL : String := "https://www.zoro.com"

def MAX_RESULTS_PER_ITEM : Nat := 5

def FUZZY_MATCH_THRESHOLD : ℚ := mkRat 50 1

/-! ### Character-list utilities

All string computation is done on `List Char` with structural (or
fuel-based structural) recursion so that concrete instances reduce
inside `decide`/`rfl`.
-/

/-- Substring test: does `pat` occur contiguously inside `cs`?
Models the Python `in` operator on strings. -/
def containsSub (cs pat : List Char) : Bool :=
  pat.isPrefixOf cs ||
    match cs with
    | [] => false
    | _ :: rest => containsSub rest pat

/-- Strip leading and trailing whitespace, as Python `str.strip()`. -/
def lcTrim (cs : List Char) : List Char :=
  ((cs.dropWhile Char.isWhitespace).reverse.dropWhile Char.isWhitespace).reverse

/-- Split on runs of whitespace, dropping empty pieces, as Python
`str.split()` with no argument.  `acc` holds the current token reversed. -/
def splitWsAcc : List Char → List Char → List (List Char)
  | [], acc => if acc = [] then [] else [acc.reverse]
  | c :: cs, acc =>
      if c.isWhitespace then
        if acc = [] then splitWsAcc cs [] else acc.reverse :: splitWsAcc cs []
      else splitWsAcc cs (c :: acc)

def splitWsCs (cs : List Char) : List (List Char) := splitWsAcc cs []

/-- Join tokens with a single blank, as Python `" ".join(...)`. -/
def joinCs : List (List Char) → List Char
  | [] => []
  | [t] => t
  | t :: ts => t ++ " ".data ++ joinCs ts

/-- Lexicographic comparison of tokens by code point, as Python `<=`
on strings (used through `sorted`). -/
def lexLe : List Char → List Char → Bool
  | [], _ => true
  | _ :: _, [] => false
  | a :: as, b :: bs => if a = b then lexLe as bs else decide (a < b)

def insertTok (x : List Char) : List (List Char) → List (List Char)
  | [] => [x]
  | y :: ys => if lexLe x y then x :: y :: ys else y :: insertTok x ys

/-- Ascending sort of tokens, as Python `sorted`. -/
def sortToks : List (List Char) → List (List Char)
  | [] => []
  | x :: xs => insertTok x (sortToks xs)

/-- Keep the first occurrence of each element (Python `set` insertion
order of the underlying dict is irrelevant here: only set content is
used downstream). -/
def dedupToks (seen : List (List Char)) : List (List Char) → List (List Char)
  | [] => []
  | t :: ts => if seen.contains t then dedupToks seen ts else t :: dedupToks (t :: seen) ts

/-! ### Longest common subsequence and the rapidfuzz measures

rapidfuzz `fuzz.ratio` is the normalized Indel similarity: with
`dist = len1 + len2 - 2 * lcs`, the score is `100 * (1 - dist / (len1 + len2))`.
`lcsF` is the textbook recursion, driven by a fuel argument so that it is
structurally recursive; fuel `len1 + len2` always suffices because every
recursive call removes at least one character in total.
-/

/-- Executable maximum on rationals (equal to the lattice `max`; written
with an explicit `if` so that concrete instances reduce in the kernel). -/
def maxq (a b : ℚ) : ℚ := if a ≤ b then b else a

def lcsF : Nat → List Char → List Char → Nat
  | 0, _, _ => 0
  | _ + 1, [], _ => 0
  | _ + 1, _ :: _, [] => 0
  | fuel + 1, a :: as, b :: bs =>
      if a = b then lcsF fuel as bs + 1
      else max (lcsF fuel (a :: as) bs) (lcsF fuel as (b :: bs))

def lcsLen (x y : List Char) : Nat := lcsF (x.length + y.length) x y

/-- Indel (insert/delete-only edit) distance. -/
def indelDistN (x y : List Char) : Nat := x.length + y.length - 2 * lcsLen x y

/-- rapidfuzz `fuzz.ratio` as an exact rational: normalized Indel
similarity scaled to 0-100, that is `100 * (1 - dist / total)`, written
as the equal fraction `(100 * (total - dist)) / total` over `mkRat` so
that it evaluates inside the kernel; two empty strings score 100. -/
def fuzzRatioQ (x y : List Char) : ℚ :=
  if x.length + y.length = 0 then mkRat 100 1
  else
    mkRat ((100 * (x.length + y.length - indelDistN x y) : ℕ) : ℤ)
      (x.length + y.length)

/-- rapidfuzz `fuzz.token_sort_ratio` (no processor): `fuzz.ratio` of the
blank-joined ascending sorts of the whitespace token lists. -/
def tokenSortRatioQ (x y : List Char) : ℚ :=
  fuzzRatioQ (joinCs (sortToks (splitWsCs x))) (joinCs (sortToks (splitWsCs y)))

/-- rapidfuzz `fuzz.token_set_ratio` (no processor).  Token sets are
compared via their intersection and differences; when the intersection is
non-empty and one difference is empty the score is 100; otherwise the
score is the maximum of the ratio between the joined sorted differences
(sharing the joined intersection as common prefix) and the two
intersection-versus-union ratios, computed on string lengths exactly as
the library does. -/
def tokenSetRatioQ (x y : List Char) : ℚ :=
  let ta := dedupToks [] (splitWsCs x)
  let tb := dedupToks [] (splitWsCs y)
  if ta.isEmpty || tb.isEmpty then mkRat 0 1
  else
    let sect := ta.filter (fun t => tb.contains t)
    let dab := ta.filter (fun t => !(tb.contains t))
    let dba := tb.filter (fun t => !(ta.contains t))
    if !sect.isEmpty && (dab.isEmpty || dba.isEmpty) then mkRat 100 1
    else
      let abJ := joinCs (sortToks dab)
      let baJ := joinCs (sortToks dba)
      let sectLen := (joinCs sect).length
      let bonus := if sectLen = 0 then 0 else 1
      let sectAbLen := sectLen + bonus + abJ.length
      let sectBaLen := sectLen + bonus + baJ.length
      let result :=
        mkRat ((100 * (sectAbLen + sectBaLen - indelDistN abJ baJ) : ℕ) : ℤ)
          (sectAbLen + sectBaLen)
      if sectLen = 0 then result
      else
        let sectAbR :=
          mkRat ((100 * (sectLen + sectAbLen - (bonus + abJ.length)) : ℕ) : ℤ)
            (sectLen + sectAbLen)
        let sectBaR :=
          mkRat ((100 * (sectLen + sectBaLen - (bonus + baJ.length)) : ℕ) : ℤ)
            (sectLen + sectBaLen)
        maxq result (maxq sectAbR sectBaR)

/-- The candidate alignment windows of rapidfuzz `fuzz.partial_ratio`
for a needle of length `n1` slid across `s2`: the proper prefixes of
`s2` shorter than the needle, every full-length window, and the proper
suffixes shorter than the needle.  The implementation skips windows
whose boundary character does not occur in the needle; those windows
never attain the maximum, so the window set below yields the same
score. -/
def windowsOf (n1 : Nat) (s2 : List Char) : List (List Char) :=
  ((List.range n1).drop 1).map (fun i => s2.take i) ++
    (List.range (s2.length - n1 + 1)).map (fun i => (s2.drop i).take n1) ++
    ((List.range s2.length).drop (s2.length - n1 + 1)).map (fun i => s2.drop i)

def maxQ : List ℚ → ℚ
  | [] => mkRat 0 1
  | q :: qs => maxq q (maxQ qs)

/-- rapidfuzz `fuzz.partial_ratio` (no processor): the best `fuzz.ratio`
between the shorter string and any alignment window of the longer one. -/
def windowRatioQ (x y : List Char) : ℚ :=
  if x.length ≤ y.length then maxQ ((windowsOf x.length y).map (fun w => fuzzRatioQ x w))
  else maxQ ((windowsOf y.length x).map (fun w => fuzzRatioQ y w))

/-- `best_score` (src/ZORO/main.py lines 116-126): 0 when either string
is empty (Python falsiness), otherwise the maximum of the three
rapidfuzz measures applied to the strings exactly as given. -/
def best_score (query candidate : String) : ℚ :=
  if query = "" ∨ candidate = "" then mkRat 0 1
  else
    maxq (tokenSetRatioQ query.data candidate.data)
      (maxq (tokenSortRatioQ query.data candidate.data)
        (windowRatioQ query.data candidate.data))

/-! ### Records and the fetch strategy chain

`ProductResult` mirrors the dataclass of the source (match_score is kept
as an exact rational; the Python field stores the float produced by
`best_score`).  `RawProduct` mirrors the dictionaries produced by
`parse_product_data`.
-/

structure RawProduct where
  title : String
  url : String
  price : String
  sku : String
  brand : String
  image_url : String
  source : String
deriving DecidableEq, Repr

structure ProductResult where
  search_term : String
  title : String
  url : String
  price : String
  sku : String
  brand : String
  image_url : String
  image_path : String
  match_score : ℚ
deriving DecidableEq, Repr

/-- Python truthiness of the fetched html: `None` and `""` are falsy. -/
def isBlankHtml : Option String → Bool
  | none => true
  | some s => s == ""

structure FetchOutcome where
  html : Option String
  playwright_called : Bool
  requests_called : Bool
deriving DecidableEq, Repr

/-- The fetch part of `search_zoro` (src/ZORO/main.py lines 478-481):
`html = fetch_html_with_playwright(url); if not html: html =
fetch_html_with_requests(url, session)`.  The two backends are oracle
values: what each call would return if made.  The flags record which
backends are consulted. -/
def fetchChain (pw rq : Option String) : FetchOutcome :=
  if isBlankHtml pw then ⟨rq, true, true⟩ else ⟨pw, true, false⟩

/-- `if not html: return []` guard, as an Option: `some` exactly when the
chain produced non-blank content. -/
def nonBlank (h : Option String) : Option String :=
  match h with
  | none => none
  | some s => if s = "" then none else some s

/-! ### The accept-up-to-a-cap loop shape

Both `parse_product_data` and `search_zoro` run the same loop: for each
element compute an optional record (`continue` on rejection), append it,
and `break` as soon as the accepted count reaches the cap.  `remaining`
is cap minus the number already accepted, so the loop stops right after
an accept makes `remaining ≤ 1`.
-/

def collectUpTo (f : α → Option β) : Nat → List α → List β
  | _, [] => []
  | remaining, x :: xs =>
      match f x with
      | none => collectUpTo f remaining xs
      | some y => if remaining ≤ 1 then [y] else y :: collectUpTo f (remaining - 1) xs

/-- One iteration of the scoring loop of `search_zoro` (lines 506-536):
skip candidates with no title and no url, score the title against the
query, skip scores below the threshold, otherwise build the
`ProductResult` (image_path is filled in later by `main`). -/
def acceptRaw (item_name : String) (raw : RawProduct) : Option ProductResult :=
  if raw.title = "" ∧ raw.url = "" then none
  else
    let match_score := best_score item_name raw.title
    if match_score < FUZZY_MATCH_THRESHOLD then none
    else
      some
        { search_term := item_name, title := raw.title, url := raw.url,
          price := raw.price, sku := raw.sku, brand := raw.brand,
          image_url := raw.image_url, image_path := "", match_score := match_score }

/-! ### The BeautifulSoup tree model

`parse_product_data` receives an HTML string and hands it to
BeautifulSoup; the tree that the parser returns is modelled by `Node`
(the whole document is the root node, tag `[document]`, as in bs4).
Traversal is a worklist with a fuel argument so that it is structurally
recursive; the fuel is the number of nodes of the tree, which is exactly
the number of traversal steps, so the fuel never runs out.
-/

inductive Node where
  | elem (tag : String) (attrs : List (String × String)) (children : List Node)
  | text (s : String)

/-- The number of nodes of a subtree: the fuel for the worklist
traversals below (each traversal step emits exactly one node, so this
fuel is exactly enough). -/
def nodeWeight : Node → Nat
  | .text _ => 1
  | .elem _ _ cs => 1 + go cs
where go : List Node → Nat
  | [] => 0
  | c :: cs => nodeWeight c + go cs

def tagOf : Node → Option String
  | .elem t _ _ => some t
  | .text _ => none

/-- Attribute lookup, `tag.get(key)` in bs4 (first binding wins). -/
def attrOf (n : Node) (key : String) : Option String :=
  match n with
  | .elem _ attrs _ => (attrs.find? (fun p => p.1 == key)).map (fun p => p.2)
  | .text _ => none

/-- `tag.get(key, "")`. -/
def getAttrD (n : Node) (key : String) : String := (attrOf n key).getD ""

/-- Preorder (document-order) traversal of a worklist of subtrees. -/
def preWork : Nat → List Node → List Node
  | 0, _ => []
  | _ + 1, [] => []
  | fuel + 1, n :: rest =>
      match n with
      | .text s => .text s :: preWork fuel rest
      | .elem t a cs => .elem t a cs :: preWork fuel (cs ++ rest)

/-- The node itself followed by its subtree in document order. -/
def subtreeNodes (n : Node) : List Node := preWork (nodeWeight n) [n]

/-- Strict descendants in document order; what `tag.select` and
`tag.find` search (the tag itself is excluded). -/
def descNodes : Node → List Node
  | .text _ => []
  | .elem t a cs => preWork (nodeWeight (Node.elem t a cs)) cs

/-- `tag.select_one(...)` with a node predicate: first matching
descendant in document order. -/
def selOne (p : Node → Bool) (card : Node) : Option Node := (descNodes card).find? p

/-- All strings of the subtree in document order (bs4 `tag.strings`). -/
def textsOf (n : Node) : List String :=
  (subtreeNodes n).filterMap (fun m =>
    match m with
    | .text s => some s
    | .elem _ _ _ => none)

def joinWith (sep : String) : List String → String
  | [] => ""
  | [s] => s
  | s :: rest => s ++ sep ++ joinWith sep rest

/-- `tag.get_text(sep, strip=True)`: every string of the subtree is
stripped, empty pieces are dropped, the rest are joined with `sep`. -/
def getTextSep (sep : String) (n : Node) : String :=
  joinWith sep (((textsOf n).map (fun s => (lcTrim s.data).asString)).filter (fun s => s != ""))

/-- Ancestor-annotated document-order traversal: every node is paired
with its preorder index and the chain of its ancestors (nearest first,
each with its own preorder index).  The index stands for Python object
identity (`id(...)`), which `parse_product_data` uses to deduplicate the
anchors found by `find_parent`. -/
structure AnnNode where
  idx : Nat
  node : Node
  ancestors : List (Nat × Node)

def annAux : Nat → Nat → List (Node × List (Nat × Node)) → List AnnNode
  | 0, _, _ => []
  | _ + 1, _, [] => []
  | fuel + 1, idx, (n, anc) :: rest =>
      ⟨idx, n, anc⟩ ::
        match n with
        | .text _ => annAux fuel (idx + 1) rest
        | .elem t a cs =>
            annAux fuel (idx + 1) ((cs.map (fun c => (c, (idx, Node.elem t a cs) :: anc))) ++ rest)

def docAnn (soup : Node) : List AnnNode := annAux (nodeWeight soup) 0 [(soup, [])]

/-- Keep the first occurrence of each index (the `seen_ids` set of the
fallback rule). -/
def dedupByIdx : List (Nat × Node) → List Nat → List (Nat × Node)
  | [], _ => []
  | p :: ps, seen =>
      if seen.contains p.1 then dedupByIdx ps seen else p :: dedupByIdx ps (p.1 :: seen)

/-! ### The three structural selection rules (lines 367-396) -/

def startsWithS (s pat : String) : Bool := pat.data.isPrefixOf s.data

def hasAttrVal (key val : String) (n : Node) : Bool := attrOf n key == some val

/-- The dedicated product-card selector: anchors carrying the
data-test=productCard attribute. -/
def isProductCardAnchor (n : Node) : Bool :=
  tagOf n == some "a" && hasAttrVal "data-test" "productCard" n

/-- The generic detail-page-link selector: anchors whose href contains
the /i/ product-path fragment. -/
def isGenericAnchor (n : Node) : Bool :=
  tagOf n == some "a" &&
    match attrOf n "href" with
    | some h => containsSub h.data "/i/".data
    | none => false

def ruleCards (soup : Node) : List Node :=
  (descNodes soup).filter isProductCardAnchor

/-- The `productCardTitle` fallback: every title-marked node in document
order, replaced by its nearest `a` ancestor (`find_parent("a")`),
deduplicated by object identity keeping the first occurrence; title
nodes with no anchor ancestor contribute nothing. -/
def ruleTitleAnchors (soup : Node) : List Node :=
  let titles := (docAnn soup).filter (fun an => hasAttrVal "data-test" "productCardTitle" an.node)
  let anchors := titles.filterMap (fun an => an.ancestors.find? (fun p => tagOf p.2 == some "a"))
  (dedupByIdx anchors []).map (fun p => p.2)

def ruleGenericAnchors (soup : Node) : List Node :=
  (descNodes soup).filter isGenericAnchor

/-- The cascade of lines 367-396: the first rule with at least one match
supplies the whole candidate list, together with the `card_source`
label. -/
def cardsOf (soup : Node) : List Node × String :=
  let r1 := ruleCards soup
  if !r1.isEmpty then (r1, "data-test-productCard")
  else
    let r2 := ruleTitleAnchors soup
    if !r2.isEmpty then (r2, "productCardTitle")
    else
      let r3 := ruleGenericAnchors soup
      if !r3.isEmpty then (r3, "generic-anchor") else ([], "none")

/-! ### Field extraction (lines 399-459) -/

def toUpperS (s : String) : String := (s.data.map Char.toUpper).asString

/-- Python `str.replace(pat, "")`, removing every occurrence left to
right; fuel is the string length, which suffices because every step
consumes at least one character. -/
def removeAllCs (pat : List Char) : Nat → List Char → List Char
  | 0, cs => cs
  | _ + 1, [] => []
  | fuel + 1, c :: cs =>
      if !pat.isEmpty && pat.isPrefixOf (c :: cs) then
        removeAllCs pat fuel ((c :: cs).drop pat.length)
      else c :: removeAllCs pat fuel cs

def removeAllS (s pat : String) : String := (removeAllCs pat.data s.data.length s.data).asString

def firstNonEmpty : List String → String
  | [] => ""
  | s :: rest => if s = "" then firstNonEmpty rest else s

def isNestedTitleTag (n : Node) : Bool :=
  tagOf n == some "div" || tagOf n == some "span" || tagOf n == some "h2" || tagOf n == some "h3"

/-- The per-card body of the extraction loop (lines 400-459): the title
cascade, url normalization against `BASE_URL`, price/brand markers, the
SKU label search with prefix and `#` stripping, the image attribute
chain, and the `continue` when both title and url are empty.  The
`try/except` of the loop cannot fire in this pure model. -/
def extractFields (source : String) (card : Node) : RawProduct :=
  let titleTag :=
    match selOne (hasAttrVal "data-test" "productCardTitle") card with
    | some t => some t
    | none => selOne (hasAttrVal "data-test" "product-title") card
  let t0 := match titleTag with
            | some tg => getTextSep " " tg
            | none => ""
  let t1 := if t0 = "" then getAttrD card "aria-label" else t0
  let t2 := if t1 = "" then getTextSep " " card else t1
  let title :=
    if t2 = "" then
      match selOne isNestedTitleTag card with
      | some tg => getTextSep " " tg
      | none => t2
    else t2
  let href := getAttrD card "href"
  let url := if startsWithS href "http" then href else if href ≠ "" then BASE_URL ++ href else ""
  let priceTag :=
    match selOne (hasAttrVal "data-test" "productCardPrice") card with
    | some t => some t
    | none => selOne (hasAttrVal "data-test" "price") card
  let price := match priceTag with
               | some tg => getTextSep "" tg
               | none => ""
  let skuTag := (descNodes card).find? (fun n =>
    (tagOf n == some "span" || tagOf n == some "div") &&
      startsWithS (toUpperS (getTextSep "" n)) "SKU")
  let skuText := match skuTag with
                 | some tg => getTextSep "" tg
                 | none => ""
  let sku := (lcTrim (removeAllS (removeAllS skuText "SKU") "#").data).asString
  let brandTag :=
    match selOne (hasAttrVal "data-test" "product-brand") card with
    | some t => some t
    | none => selOne (hasAttrVal "data-test" "brand-name") card
  let brand := match brandTag with
               | some tg => getTextSep "" tg
               | none => ""
  let imageTag := selOne (fun n => tagOf n == some "img") card
  let image_url :=
    match imageTag with
    | none => ""
    | some tg => firstNonEmpty [getAttrD tg "src", getAttrD tg "data-src", getAttrD tg "data-original"]
  { title := title, url := url, price := price, sku := sku,
    brand := brand, image_url := image_url, source := source }

/-- The `continue` of line 446: a unit with no title and no url is
dropped (the test reads exactly the fields the record would carry). -/
def extractCard (source : String) (card : Node) : Option RawProduct :=
  let raw := extractFields source card
  if raw.title = "" ∧ raw.url = "" then none else some raw

/-- `parse_product_data` (lines 358-466) on the parsed tree: pick the
candidate set via the rule cascade and run the accept-up-to loop over it
in document order. -/
def parse_product_data (soup : Node) (max_results : Nat) : List RawProduct :=
  let cards := cardsOf soup
  collectUpTo (extractCard cards.2) max_results cards.1

/-- `search_zoro` (lines 473-541).  `pw` and `rq` are the contents the
two fetch backends would return; `soupOf` is the BeautifulSoup parse of
an HTML string. -/
def search_zoro (item_name : String) (pw rq : Option String) (soupOf : String → Node) :
    List ProductResult :=
  match nonBlank (fetchChain pw rq).html with
  | none => []
  | some h =>
      let raw_results := parse_product_data (soupOf h) (MAX_RESULTS_PER_ITEM * 2)
      if raw_results.isEmpty then []
      else collectUpTo (acceptRaw item_name) MAX_RESULTS_PER_ITEM raw_results

/-! ### The Playwright fetch loop (lines 270-351)

Per attempt the page is an oracle (`AttemptBehavior`): whether the
navigation call raises, what the two `page.content()` calls return
(`none` models an exception), and whether the two selector waits see
their element.  The loop itself — six attempts, fresh navigation only on
the first, the dwell pause, the case-insensitive challenge scan, the
fixed ten-second challenge cooldown that discards the captured content,
the break on any success marker, the three-second soft pause — is
modelled exactly, with the pauses and navigation calls recorded as
events. -/

inductive PwEvent where
  | navigate
  | reload
  | dwell
  | challengePause
  | softPause
deriving DecidableEq, Repr

structure AttemptBehavior where
  navOk : Bool
  content1 : Option String
  cardVisible : Bool
  titleVisible : Bool
  content2 : Option String
deriving DecidableEq, Repr

def productCardMarker : String := "[data-test=\"productCard\"]"

/-- Case-insensitive scan for the two Cloudflare challenge markers
(lines 300-303). -/
def hasChallengeMarker (s : String) : Bool :=
  let low := s.data.map Char.toLower
  containsSub low "data-cfasync".data || containsSub low "__cf_chl_jschl_tk__".data

/-- `if html:` followed by the marker scan. -/
def challengeDetected : Option String → Bool
  | none => false
  | some s => !(s == "") && hasChallengeMarker s

/-- One loop iteration: returns the html variable after the iteration,
whether the loop breaks, and the events of the iteration. -/
def pwStep (beh : AttemptBehavior) (first : Bool) (html0 : Option String) :
    Option String × Bool × List PwEvent :=
  let navEv := if first then PwEvent.navigate else PwEvent.reload
  if !beh.navOk then (html0, false, [navEv])
  else
    let html1 := beh.content1
    if challengeDetected html1 then (none, false, [navEv, .dwell, .challengePause])
    else
      let html2 := match beh.content2 with
                   | some s => some s
                   | none => html1
      let htmlCards := match html2 with
                       | some s => !(s == "") && containsSub s.data productCardMarker.data
                       | none => false
      if beh.cardVisible || beh.titleVisible || htmlCards then (html2, true, [navEv, .dwell])
      else (html2, false, [navEv, .dwell, .softPause])

def pwRunAux (b : Nat → AttemptBehavior) : Nat → Nat → Option String →
    Option String × List (List PwEvent)
  | 0, _, html => (html, [])
  | fuel + 1, attempt, html =>
      let step := pwStep (b attempt) (attempt == 1) html
      if step.2.1 then (step.1, [step.2.2])
      else
        let rest := pwRunAux b fuel (attempt + 1) step.1
        (rest.1, step.2.2 :: rest.2)

/-- `fetch_html_with_playwright`, given the per-attempt page behaviour:
the returned html (possibly none) and the event log of every attempt
made. -/
def fetch_html_with_playwright (b : Nat → AttemptBehavior) :
    Option String × List (List PwEvent) :=
  pwRunAux b 6 1 none

/-! ### The main loop (lines 603-674)

`search` abstracts the `search_zoro` call for one item; `imgOf` abstracts
`download_image` (disk and network I/O), giving the path stored for the
result at one-based index `idx`.  The loop appends either the item
results (with image paths filled in) or the single sentinel row, drives
the consecutive-failure counter, and fires the sixty-second cooldown
when the counter reaches three, then resets it.
-/

def sentinelResult (item : String) : ProductResult :=
  { search_term := item, title := "Not found", url := "", price := "", sku := "",
    brand := "", image_url := "", image_path := "", match_score := mkRat 0 1 }

def attachImages (imgOf : String → Nat → ProductResult → String) (item : String) :
    Nat → List ProductResult → List ProductResult
  | _, [] => []
  | idx, p :: ps =>
      { p with image_path := imgOf item idx p } :: attachImages imgOf item (idx + 1) ps

/-- The rows `main` appends for one item. -/
def itemRows (search : String → List ProductResult)
    (imgOf : String → Nat → ProductResult → String) (item : String) : List ProductResult :=
  match search item with
  | [] => [sentinelResult item]
  | p :: ps => attachImages imgOf item 1 (p :: ps)

/-- The whole loop, carrying the consecutive-failure counter: returns
`all_results` and, per item, whether the sixty-second cooldown fired
after that item. -/
def mainLoop (search : String → List ProductResult)
    (imgOf : String → Nat → ProductResult → String) :
    List String → Nat → List ProductResult × List Bool
  | [], _ => ([], [])
  | item :: rest, c =>
      let rows := itemRows search imgOf item
      let failed : Bool := (search item).isEmpty
      let c1 := cond failed (c + 1) 0
      let fired : Bool := decide (3 ≤ c1)
      let c2 := if 3 ≤ c1 then 0 else c1
      let next := mainLoop search imgOf rest c2
      (rows ++ next.1, fired :: next.2)

/-- The length of the failure run ending at each position: 0 at a
success, previous value plus one at a failure.  This is the
specification-side reading of a run of consecutive zero-result
queries. -/
def failRuns : List Bool → Nat → List Nat
  | [], _ => []
  | b :: bs, s =>
      let s1 := cond b (s + 1) 0
      s1 :: failRuns bs s1

/-! ### Concrete trees used by the witnesses and the counterexample -/

/-- A page with one dedicated product card. -/
def demoCardSoup : Node :=
  .elem "[document]" []
    [.elem "a" [("data-test", "productCard"), ("href", "/i/G123/")]
      [.elem "span" [("data-test", "productCardTitle")] [.text "hex bolt"]]]

def demoSoupOf : String → Node := fun _ => demoCardSoup

/-- The record the pipeline produces from `demoCardSoup` for the query
"hex bolt". -/
def demoResult : ProductResult :=
  { search_term := "hex bolt", title := "hex bolt", url := BASE_URL ++ "/i/G123/",
    price := "", sku := "", brand := "", image_url := "", image_path := "",
    match_score := mkRat 100 1 }

def demoRaw : RawProduct :=
  { title := "hex bolt", url := BASE_URL ++ "/i/G123/", price := "", sku := "",
    brand := "", image_url := "", source := "data-test-productCard" }

/-- A page with no product-card anchors where the `productCardTitle`
fallback matches two title nodes whose nearest anchors are nested: the
first title node sits inside the inner anchor, the second directly under
the outer anchor. -/
def nestedSoup : Node :=
  .elem "[document]" []
    [.elem "a" [("href", "/i/outer/")]
      [.elem "div" []
        [.elem "a" [("href", "/i/inner/")]
          [.elem "span" [("data-test", "productCardTitle")] [.text "Inner Widget"]]],
       .elem "span" [("data-test", "productCardTitle")] [.text "Outer Widget"]]]

/-! ### Basic lemmas about the executable rational operations -/

theorem maxq_eq_max (a b : ℚ) : maxq a b = max a b := by
  rw [maxq, max_def]

theorem mkRat_natCast_nonneg (n d : ℕ) : 0 ≤ mkRat (n : ℤ) d := by
  rw [Rat.mkRat_eq_div]
  positivity

theorem mkRat_natCast_le_100 {n d : ℕ} (h : n ≤ 100 * d) : mkRat (n : ℤ) d ≤ 100 := by
  rw [Rat.mkRat_eq_div]
  rcases Nat.eq_zero_or_pos d with hd | hd
  · subst hd
    simp
  · have hd' : (0 : ℚ) < (d : ℕ) := by exact_mod_cast hd
    rw [div_le_iff₀ hd']
    exact_mod_cast h

theorem mkRat_zero_one : mkRat 0 1 = (0 : ℚ) := by
  rw [Rat.mkRat_eq_div]
  norm_num

theorem mkRat_hundred_one : mkRat 100 1 = (100 : ℚ) := by
  rw [Rat.mkRat_eq_div]
  norm_num

theorem mkRat_fifty_one : mkRat 50 1 = (50 : ℚ) := by
  rw [Rat.mkRat_eq_div]
  norm_num

/-! ### Bounds and fixed points of the similarity measures -/

theorem lcsF_self (fuel : Nat) : ∀ x : List Char, x.length ≤ fuel → lcsF fuel x x = x.length := by
  induction fuel with
  | zero =>
      intro x hx
      have : x = [] := List.length_eq_zero.mp (Nat.le_zero.mp hx)
      subst this
      rfl
  | succ n ih =>
      intro x hx
      cases x with
      | nil => rfl
      | cons a as =>
          simp only [lcsF, if_pos rfl]
          have : as.length ≤ n := by
            simpa using Nat.succ_le_succ_iff.mp hx
          rw [ih as this]
          rfl

theorem fuzzRatioQ_nonneg (x y : List Char) : 0 ≤ fuzzRatioQ x y := by
  simp only [fuzzRatioQ]
  split
  · rw [mkRat_hundred_one]
    norm_num
  · exact mkRat_natCast_nonneg _ _

theorem fuzzRatioQ_le_100 (x y : List Char) : fuzzRatioQ x y ≤ 100 := by
  simp only [fuzzRatioQ]
  split
  · rw [mkRat_hundred_one]
  · exact mkRat_natCast_le_100 (Nat.mul_le_mul_left 100 (Nat.sub_le _ _))

theorem fuzzRatioQ_self (x : List Char) : fuzzRatioQ x x = 100 := by
  simp only [fuzzRatioQ]
  split
  · exact mkRat_hundred_one
  · rename_i htot
    have hx : x.length ≠ 0 := by omega
    have hlcs : lcsLen x x = x.length := by
      unfold lcsLen
      exact lcsF_self _ x (by omega)
    have hdist : indelDistN x x = 0 := by
      unfold indelDistN
      omega
    rw [hdist, Nat.sub_zero, Rat.mkRat_eq_div]
    have hpos : (0 : ℚ) < ((x.length + x.length : ℕ) : ℚ) := by
      have : 0 < x.length + x.length := by omega
      exact_mod_cast this
    rw [div_eq_iff (ne_of_gt hpos)]
    push_cast
    ring

theorem maxq_nonneg {a b : ℚ} (ha : 0 ≤ a) (_hb : 0 ≤ b) : 0 ≤ maxq a b := by
  rw [maxq_eq_max]
  exact le_max_of_le_left ha

theorem maxq_le {a b c : ℚ} (ha : a ≤ c) (hb : b ≤ c) : maxq a b ≤ c := by
  rw [maxq_eq_max]
  exact max_le ha hb

theorem tokenSetRatioQ_nonneg (x y : List Char) : 0 ≤ tokenSetRatioQ x y := by
  simp only [tokenSetRatioQ]
  split
  · rw [mkRat_zero_one]
  · split
    · rw [mkRat_hundred_one]
      norm_num
    · split
      · exact mkRat_natCast_nonneg _ _
      · exact maxq_nonneg (mkRat_natCast_nonneg _ _)
          (maxq_nonneg (mkRat_natCast_nonneg _ _) (mkRat_natCast_nonneg _ _))

theorem tokenSetRatioQ_le_100 (x y : List Char) : tokenSetRatioQ x y ≤ 100 := by
  simp only [tokenSetRatioQ]
  split
  · rw [mkRat_zero_one]
    norm_num
  · split
    · rw [mkRat_hundred_one]
    · split
      · exact mkRat_natCast_le_100 (Nat.mul_le_mul_left 100 (Nat.sub_le _ _))
      · exact maxq_le (mkRat_natCast_le_100 (Nat.mul_le_mul_left 100 (Nat.sub_le _ _)))
          (maxq_le (mkRat_natCast_le_100 (Nat.mul_le_mul_left 100 (Nat.sub_le _ _)))
            (mkRat_natCast_le_100 (Nat.mul_le_mul_left 100 (Nat.sub_le _ _))))

theorem tokenSortRatioQ_nonneg (x y : List Char) : 0 ≤ tokenSortRatioQ x y :=
  fuzzRatioQ_nonneg _ _

theorem tokenSortRatioQ_le_100 (x y : List Char) : tokenSortRatioQ x y ≤ 100 :=
  fuzzRatioQ_le_100 _ _

theorem tokenSortRatioQ_self (x : List Char) : tokenSortRatioQ x x = 100 :=
  fuzzRatioQ_self _

theorem maxQ_nonneg (l : List ℚ) : 0 ≤ maxQ l := by
  induction l with
  | nil =>
      rw [maxQ, mkRat_zero_one]
  | cons q qs ih =>
      rw [maxQ, maxq_eq_max]
      exact le_max_of_le_right ih

theorem maxQ_le_100 (l : List ℚ) (h : ∀ q ∈ l, q ≤ 100) : maxQ l ≤ 100 := by
  induction l with
  | nil =>
      rw [maxQ, mkRat_zero_one]
      norm_num
  | cons q qs ih =>
      rw [maxQ]
      exact maxq_le (h q (List.mem_cons_self q qs))
        (ih fun r hr => h r (List.mem_cons_of_mem q hr))

theorem windowRatioQ_nonneg (x y : List Char) : 0 ≤ windowRatioQ x y := by
  unfold windowRatioQ
  split <;> exact maxQ_nonneg _

theorem windowRatioQ_le_100 (x y : List Char) : windowRatioQ x y ≤ 100 := by
  unfold windowRatioQ
  split <;>
    exact maxQ_le_100 _ (by
      intro q hq
      obtain ⟨w, _, rfl⟩ := List.mem_map.mp hq
      exact fuzzRatioQ_le_100 _ _)

/-! ### Properties of `best_score` -/

theorem best_score_nonneg (q t : String) : 0 ≤ best_score q t := by
  unfold best_score
  split
  · rw [mkRat_zero_one]
  · exact maxq_nonneg (tokenSetRatioQ_nonneg _ _)
      (maxq_nonneg (tokenSortRatioQ_nonneg _ _) (windowRatioQ_nonneg _ _))

theorem best_score_le_100 (q t : String) : best_score q t ≤ 100 := by
  unfold best_score
  split
  · rw [mkRat_zero_one]
    norm_num
  · exact maxq_le (tokenSetRatioQ_le_100 _ _)
      (maxq_le (tokenSortRatioQ_le_100 _ _) (windowRatioQ_le_100 _ _))

theorem best_score_of_empty {q t : String} (h : q = "" ∨ t = "") : best_score q t = 0 := by
  unfold best_score
  rw [if_pos h, mkRat_zero_one]

theorem best_score_self {s : String} (h : s ≠ "") : best_score s s = 100 := by
  unfold best_score
  rw [if_neg (by simp [h])]
  rw [maxq_eq_max, maxq_eq_max, tokenSortRatioQ_self]
  rw [max_eq_left (windowRatioQ_le_100 _ _)]
  rw [max_eq_right (tokenSetRatioQ_le_100 _ _)]

/-! ### The accept-up-to loop: extensional characterization -/

theorem collectUpTo_eq_take {α β : Type} (f : α → Option β) :
    ∀ (l : List α) (n : Nat), 1 ≤ n → collectUpTo f n l = (l.filterMap f).take n := by
  intro l
  induction l with
  | nil => intro n _; simp [collectUpTo]
  | cons x xs ih =>
      intro n hn
      rw [collectUpTo]
      cases hfx : f x with
      | none => rw [List.filterMap_cons_none hfx]; exact ih n hn
      | some y =>
          rw [List.filterMap_cons_some hfx]
          dsimp only
          by_cases h1 : n ≤ 1
          · have : n = 1 := le_antisymm h1 hn
            subst this
            simp
          · rw [if_neg h1, ih (n - 1) (by omega)]
            have : n = (n - 1) + 1 := by omega
            rw [this, List.take_succ_cons]
            simp

theorem collectUpTo_mem {α β : Type} (f : α → Option β) :
    ∀ (l : List α) (n : Nat) (y : β), y ∈ collectUpTo f n l → y ∈ l.filterMap f := by
  intro l
  induction l with
  | nil => intro n y h; simp [collectUpTo] at h
  | cons x xs ih =>
      intro n y h
      rw [collectUpTo] at h
      cases hfx : f x with
      | none =>
          rw [hfx] at h
          rw [List.filterMap_cons_none hfx]
          exact ih n y h
      | some z =>
          rw [hfx] at h
          dsimp only at h
          rw [List.filterMap_cons_some hfx]
          by_cases h1 : n ≤ 1
          · rw [if_pos h1] at h
            simp at h
            simp [h]
          · rw [if_neg h1] at h
            rcases List.mem_cons.mp h with h | h
            · simp [h]
            · exact List.mem_cons_of_mem _ (ih _ y h)

theorem collectUpTo_length_le {α β : Type} (f : α → Option β) (l : List α) (n : Nat)
    (hn : 1 ≤ n) : (collectUpTo f n l).length ≤ n := by
  rw [collectUpTo_eq_take f l n hn]
  simp [List.length_take]

/-! ### Properties of `acceptRaw` -/

theorem acceptRaw_some {item : String} {raw : RawProduct} {r : ProductResult}
    (h : acceptRaw item raw = some r) :
    FUZZY_MATCH_THRESHOLD ≤ r.match_score ∧ r.title = raw.title ∧
      r.match_score = best_score item raw.title := by
  unfold acceptRaw at h
  by_cases h1 : raw.title = "" ∧ raw.url = ""
  · rw [if_pos h1] at h; exact absurd h (by simp)
  · rw [if_neg h1] at h
    by_cases h2 : best_score item raw.title < FUZZY_MATCH_THRESHOLD
    · rw [if_pos h2] at h; exact absurd h (by simp)
    · rw [if_neg h2] at h
      have := Option.some.inj h
      subst this
      exact ⟨not_lt.mp h2, rfl, rfl⟩

/-! ### The scoring stage of `search_zoro` -/

theorem search_zoro_mem {item : String} {pw rq : Option String} {soupOf : String → Node}
    {r : ProductResult} (h : r ∈ search_zoro item pw rq soupOf) :
    ∃ raw, acceptRaw item raw = some r := by
  unfold search_zoro at h
  cases hnb : nonBlank (fetchChain pw rq).html with
  | none => rw [hnb] at h; simp at h
  | some page =>
      rw [hnb] at h
      dsimp only at h
      split at h
      · simp at h
      · have := collectUpTo_mem _ _ _ _ h
        obtain ⟨raw, _, hacc⟩ := List.mem_filterMap.mp this
        exact ⟨raw, hacc⟩

theorem search_zoro_eq_take (item : String) (pw rq : Option String) (soupOf : String → Node)
    (page : String) (hh : nonBlank (fetchChain pw rq).html = some page) :
    search_zoro item pw rq soupOf =
      ((parse_product_data (soupOf page) (MAX_RESULTS_PER_ITEM * 2)).filterMap
        (acceptRaw item)).take MAX_RESULTS_PER_ITEM := by
  unfold search_zoro
  rw [hh]
  dsimp only
  split
  · rename_i hemp
    rw [List.isEmpty_iff.mp hemp]
    simp
  · exact collectUpTo_eq_take _ _ _ (by norm_num [MAX_RESULTS_PER_ITEM])

theorem threshold_eq : FUZZY_MATCH_THRESHOLD = (50 : ℚ) := by
  rw [FUZZY_MATCH_THRESHOLD, mkRat_fifty_one]

/-- C1: for every query the list returned by `search_zoro` has at most
`MAX_RESULTS_PER_ITEM` (5) records, every returned record has
`match_score` at least `FUZZY_MATCH_THRESHOLD` (50), and the accepted
records are the first (at most) five threshold-passing candidates in
document (encounter) order: the output is literally the five-element
truncation of the accepted-candidate stream, with no re-sorting by
score. -/
theorem search_zoro_bounded_threshold_ordered (item : String) (pw rq : Option String)
    (soupOf : String → Node) :
    (search_zoro item pw rq soupOf).length ≤ MAX_RESULTS_PER_ITEM ∧
      (∀ r ∈ search_zoro item pw rq soupOf, FUZZY_MATCH_THRESHOLD ≤ r.match_score) ∧
      (∀ page : String, nonBlank (fetchChain pw rq).html = some page →
        search_zoro item pw rq soupOf =
          ((parse_product_data (soupOf page) (MAX_RESULTS_PER_ITEM * 2)).filterMap
            (acceptRaw item)).take MAX_RESULTS_PER_ITEM) := by
  refine ⟨?_, ?_, ?_⟩
  · cases hnb : nonBlank (fetchChain pw rq).html with
    | none =>
        unfold search_zoro
        rw [hnb]
        simp
    | some page =>
        rw [search_zoro_eq_take item pw rq soupOf page hnb]
        simp [MAX_RESULTS_PER_ITEM, List.length_take]
  · intro r hr
    obtain ⟨raw, hacc⟩ := search_zoro_mem hr
    exact (acceptRaw_some hacc).1
  · intro page hh
    exact search_zoro_eq_take item pw rq soupOf page hh

/-- Closed instance of C1: the demo page yields the take-of-accepted
characterization with the playwright backend supplying content. -/
theorem search_zoro_bounded_threshold_ordered_witness :
    search_zoro "hex bolt" (some "page") none demoSoupOf =
      ((parse_product_data (demoSoupOf "page") (MAX_RESULTS_PER_ITEM * 2)).filterMap
        (acceptRaw "hex bolt")).take MAX_RESULTS_PER_ITEM :=
  (search_zoro_bounded_threshold_ordered "hex bolt" (some "page") none demoSoupOf).2.2
    "page" (by decide)

/-- C10: every record returned by `search_zoro` has a non-empty title:
`best_score` is 0 on an empty title, and 0 is below the threshold 50, so
an empty-titled candidate can never be accepted even though the
extractor only guarantees title-or-url presence. -/
theorem search_results_have_nonempty_title (item : String) (pw rq : Option String)
    (soupOf : String → Node) :
    ∀ r ∈ search_zoro item pw rq soupOf, r.title ≠ "" := by
  intro r hr
  obtain ⟨raw, hacc⟩ := search_zoro_mem hr
  obtain ⟨hthr, htitle, hscore⟩ := acceptRaw_some hacc
  intro hempty
  rw [htitle] at hempty
  rw [hscore, best_score_of_empty (Or.inr hempty), threshold_eq] at hthr
  norm_num at hthr

/-- Closed instance of C10 at the demo page. -/
theorem search_results_have_nonempty_title_witness : demoResult.title ≠ "" :=
  search_results_have_nonempty_title "hex bolt" (some "page") none demoSoupOf
    demoResult (by decide)

/-- C2: the fetch layer tries the backends in fixed priority order
(playwright first, plain requests second) and returns the first
non-blank content; the requests backend is never consulted when
playwright returned non-blank content; and any non-empty string —
challenge page or not — is accepted as-is, the only check at this layer
being non-emptiness. -/
theorem fetch_chain_first_nonempty_wins (pw rq : Option String) :
    (isBlankHtml pw = false →
        fetchChain pw rq = ⟨pw, true, false⟩) ∧
      (isBlankHtml pw = true →
        fetchChain pw rq = ⟨rq, true, true⟩) ∧
      (∀ s : String, s ≠ "" →
        (fetchChain (some s) rq).requests_called = false ∧
          (fetchChain (some s) rq).html = some s) := by
  refine ⟨?_, ?_, ?_⟩
  · intro h
    unfold fetchChain
    rw [h]
    rfl
  · intro h
    unfold fetchChain
    rw [h]
    rfl
  · intro s hs
    have h : isBlankHtml (some s) = false := by
      unfold isBlankHtml
      exact beq_eq_false_iff_ne.mpr hs
    unfold fetchChain
    rw [h]
    exact ⟨rfl, rfl⟩

/-- Closed instance of C2: a page whose content is a challenge
interstitial is still returned by the first backend and the second is
not consulted. -/
theorem fetch_chain_first_nonempty_wins_witness :
    (fetchChain (some "checking your browser") none).requests_called = false ∧
      (fetchChain (some "checking your browser") none).html = some "checking your browser" :=
  (fetch_chain_first_nonempty_wins (some "checking your browser") none).2.2
    "checking your browser" (by decide)

/-- C3 counterexample: the score is not invariant under case and
punctuation changes.  `best_score` passes no processor to rapidfuzz, so
no normalization happens: the pair singled out by the claim scores
400/13 (about 30.8), not 100, while the lowercase pair scores 100. -/
theorem best_score_not_normalization_invariant :
    best_score "Hex Bolt" "HEX-BOLT!!" ≠ best_score "hex bolt" "hex bolt" ∧
      best_score "hex bolt" "hex bolt" = 100 ∧
      best_score "Hex Bolt" "HEX-BOLT!!" ≠ 100 := by
  have h1 : best_score "Hex Bolt" "HEX-BOLT!!" = mkRat 400 13 := by decide
  have h2 : best_score "hex bolt" "hex bolt" = mkRat 100 1 := by decide
  have h13 : (mkRat 400 13 : ℚ) = 400 / 13 := by
    rw [Rat.mkRat_eq_div]
    norm_num
  refine ⟨?_, ?_, ?_⟩
  · rw [h1, h2, mkRat_hundred_one, h13]
    norm_num
  · rw [h2, mkRat_hundred_one]
  · rw [h1, h13]
    norm_num

/-- C3 amended: the score depends on the raw strings.  Two equal
non-empty strings always score 100 (the sorted-token measure of a string
against itself is exact), but case or punctuation variants need not be
equal: score("Hex Bolt", "HEX-BOLT!!") is exactly 400/13. -/
theorem best_score_raw_string_dependence :
    (∀ s : String, s ≠ "" → best_score s s = 100) ∧
      best_score "Hex Bolt" "HEX-BOLT!!" = 400 / 13 := by
  constructor
  · intro s hs
    exact best_score_self hs
  · have h1 : best_score "Hex Bolt" "HEX-BOLT!!" = mkRat 400 13 := by decide
    rw [h1, Rat.mkRat_eq_div]
    norm_num

/-- Closed instance of the amended C3. -/
theorem best_score_raw_string_dependence_witness :
    best_score "hex bolt" "hex bolt" = 100 :=
  best_score_raw_string_dependence.1 "hex bolt" (by decide)

/-- C4 counterexample: the score is not an integer in general:
score("abd", "abcd") is exactly 600/7 (rapidfuzz returns doubles, not
integers, and 600/7 is not integral). -/
theorem best_score_not_integer :
    best_score "abd" "abcd" = 600 / 7 ∧ ¬∃ n : ℤ, best_score "abd" "abcd" = (n : ℚ) := by
  have h : best_score "abd" "abcd" = mkRat 600 7 := by decide
  constructor
  · rw [h, Rat.mkRat_eq_div]
    norm_num
  · rintro ⟨n, hn⟩
    have hden : (best_score "abd" "abcd").den = 7 := by decide
    rw [hn] at hden
    simp [Rat.den_intCast] at hden

/-- C4 amended: `best_score` is a rational (in the implementation, a
floating-point) value in [0, 100]; it is 0 whenever either string is
empty, and otherwise equals the maximum of exactly the three rapidfuzz
measures — token-set, token-sort and partial/substring similarity —
applied to the two strings as given (no case or punctuation
normalization). -/
theorem best_score_range_and_max_of_three (q t : String) :
    0 ≤ best_score q t ∧ best_score q t ≤ 100 ∧
      ((q = "" ∨ t = "") → best_score q t = 0) ∧
      (¬(q = "" ∨ t = "") →
        best_score q t =
          max (tokenSetRatioQ q.data t.data)
            (max (tokenSortRatioQ q.data t.data) (windowRatioQ q.data t.data))) := by
  refine ⟨best_score_nonneg q t, best_score_le_100 q t, best_score_of_empty, ?_⟩
  intro h
  unfold best_score
  rw [if_neg h, maxq_eq_max, maxq_eq_max]

/-- Closed instance of the amended C4. -/
theorem best_score_range_and_max_of_three_witness :
    best_score "" "x" = 0 ∧
      best_score "abd" "abcd" =
        max (tokenSetRatioQ "abd".data "abcd".data)
          (max (tokenSortRatioQ "abd".data "abcd".data)
            (windowRatioQ "abd".data "abcd".data)) :=
  ⟨(best_score_range_and_max_of_three "" "x").2.2.1 (Or.inl rfl),
    (best_score_range_and_max_of_three "abd" "abcd").2.2.2 (by decide)⟩

/-! ### The main loop: sentinel rows and the failure cooldown -/

theorem mainLoop_rows (search : String → List ProductResult)
    (imgOf : String → Nat → ProductResult → String) :
    ∀ (items : List String) (c : Nat),
      (mainLoop search imgOf items c).1 = (items.map (itemRows search imgOf)).flatten := by
  intro items
  induction items with
  | nil => intro c; simp [mainLoop]
  | cons item rest ih =>
      intro c
      simp only [mainLoop, List.map_cons, List.flatten_cons]
      rw [ih]

theorem itemRows_of_no_results {search : String → List ProductResult}
    {imgOf : String → Nat → ProductResult → String} {item : String}
    (h : search item = []) : itemRows search imgOf item = [sentinelResult item] := by
  unfold itemRows
  rw [h]

theorem itemRows_ne_nil (search : String → List ProductResult)
    (imgOf : String → Nat → ProductResult → String) (item : String) :
    itemRows search imgOf item ≠ [] := by
  unfold itemRows
  cases search item with
  | nil => simp
  | cons p ps => simp [attachImages]

/-- C5: a query with zero accepted candidates contributes exactly one
row to the output: the sentinel record with title "Not found",
match_score 0 and every other field empty; hence every input query has
at least one output row (the output is the concatenation of the
per-item row blocks, each non-empty). -/
theorem sentinel_row_for_zero_result_queries (search : String → List ProductResult)
    (imgOf : String → Nat → ProductResult → String) (items : List String) :
    (mainLoop search imgOf items 0).1 = (items.map (itemRows search imgOf)).flatten ∧
      (∀ item, search item = [] →
        itemRows search imgOf item = [sentinelResult item]) ∧
      (∀ item, sentinelResult item =
        { search_term := item, title := "Not found", url := "", price := "", sku := "",
          brand := "", image_url := "", image_path := "", match_score := 0 }) ∧
      (∀ item, itemRows search imgOf item ≠ []) := by
  refine ⟨mainLoop_rows search imgOf items 0, ?_, ?_, itemRows_ne_nil search imgOf⟩
  · intro item h
    exact itemRows_of_no_results h
  · intro item
    unfold sentinelResult
    rw [mkRat_zero_one]

/-- Closed instance of C5: the scenario of the specification, a query
with no results at all. -/
theorem sentinel_row_for_zero_result_queries_witness :
    itemRows (fun _ => []) (fun _ _ _ => "") "Widget XYZ" =
      [sentinelResult "Widget XYZ"] :=
  (sentinel_row_for_zero_result_queries (fun _ => []) (fun _ _ _ => "") ["Widget XYZ"]).2.1
    "Widget XYZ" rfl

/-- The counter recursion of the loop, on the failure bits alone. -/
def counterFlags : List Bool → Nat → List Bool
  | [], _ => []
  | b :: bs, c =>
      let c1 := cond b (c + 1) 0
      (decide (3 ≤ c1)) :: counterFlags bs (if 3 ≤ c1 then 0 else c1)

theorem mainLoop_snd (search : String → List ProductResult)
    (imgOf : String → Nat → ProductResult → String) :
    ∀ (items : List String) (c : Nat),
      (mainLoop search imgOf items c).2 =
        counterFlags (items.map fun it => (search it).isEmpty) c := by
  intro items
  induction items with
  | nil => intro c; simp [mainLoop, counterFlags]
  | cons item rest ih =>
      intro c
      simp only [mainLoop, counterFlags, List.map_cons]
      rw [ih]

theorem counterFlags_eq_failRuns :
    ∀ (bs : List Bool) (c s : Nat), c = s % 3 →
      counterFlags bs c = (failRuns bs s).map (fun n => decide (n ≠ 0 ∧ n % 3 = 0)) := by
  intro bs
  induction bs with
  | nil => intro c s _; simp [counterFlags, failRuns]
  | cons b rest ih =>
      intro c s hc
      cases b with
      | true =>
          simp only [counterFlags, failRuns, cond_true, List.map_cons]
          have hhead : decide (3 ≤ c + 1) = decide (s + 1 ≠ 0 ∧ (s + 1) % 3 = 0) := by
            rw [decide_eq_decide]
            omega
          have hc2 : (if 3 ≤ c + 1 then 0 else c + 1) = (s + 1) % 3 := by
            split <;> omega
          rw [hhead, hc2, ih ((s + 1) % 3) (s + 1) rfl]
      | false =>
          simp only [counterFlags, failRuns, cond_false, List.map_cons]
          have hhead : (decide (3 ≤ 0) : Bool) = decide ((0 : Nat) ≠ 0 ∧ 0 % 3 = 0) := by
            rw [decide_eq_decide]
            omega
          have hc2 : (if 3 ≤ (0 : Nat) then 0 else (0 : Nat)) = 0 := by
            split <;> omega
          rw [hhead, hc2, ih 0 0 rfl]
          norm_num

/-- C9: across the main loop the consecutive-failure counter is
incremented by each zero-result query and reset by any query with
results; the sixty-second cooldown fires exactly after every third
consecutive zero-result query of a failure run (run positions 3, 6, ...)
and resets the counter, matching the run-length characterization on the
right-hand side. -/
theorem cooldown_after_three_consecutive_failures (search : String → List ProductResult)
    (imgOf : String → Nat → ProductResult → String) (items : List String) :
    (mainLoop search imgOf items 0).2 =
      (failRuns (items.map fun it => (search it).isEmpty) 0).map
        (fun n => decide (n ≠ 0 ∧ n % 3 = 0)) := by
  rw [mainLoop_snd search imgOf items 0]
  exact counterFlags_eq_failRuns _ 0 0 rfl

/-! ### The extractor: dropped candidates and the rule cascade -/

theorem extractCard_some {src : String} {card : Node} {raw : RawProduct}
    (h : extractCard src card = some raw) : ¬(raw.title = "" ∧ raw.url = "") := by
  unfold extractCard at h
  dsimp only at h
  split at h
  · exact absurd h (by simp)
  · rename_i hcond
    have := Option.some.inj h
    subst this
    exact hcond

/-- C7: every candidate whose extracted title and extracted url are both
empty is excluded from the extractor output, whichever selection rule
produced the candidate set. -/
theorem extractor_drops_titleless_urlless (soup : Node) (max_results : Nat) :
    ∀ raw ∈ parse_product_data soup max_results, ¬(raw.title = "" ∧ raw.url = "") := by
  intro raw hmem
  unfold parse_product_data at hmem
  have := collectUpTo_mem _ _ _ _ hmem
  obtain ⟨card, _, hextract⟩ := List.mem_filterMap.mp this
  exact extractCard_some hextract

/-- Closed instance of C7 at the demo page. -/
theorem extractor_drops_titleless_urlless_witness :
    ¬(demoRaw.title = "" ∧ demoRaw.url = "") :=
  extractor_drops_titleless_urlless demoCardSoup (MAX_RESULTS_PER_ITEM * 2) demoRaw
    (by decide)

/-- C6 amended: the selection rules are tried in the fixed order
product-card anchors, then title-markers mapped to their nearest anchor
ancestors, then generic detail-page anchors; the first rule with at
least one match supplies the entire candidate set with no merging; the
output is the accepted-candidate stream truncated at `max_results`
(early termination, extensionally the take); the product-card and
generic-anchor rules produce candidates in document order (sublists of
the document-order traversal), while the title-marker fallback follows
the document order of the title markers, which can differ from the
anchors own document order when matched anchors are nested (see the
counterexample). -/
theorem parse_rule_cascade_and_cap (soup : Node) (max_results : Nat) :
    (ruleCards soup ≠ [] →
        cardsOf soup = (ruleCards soup, "data-test-productCard")) ∧
      (ruleCards soup = [] → ruleTitleAnchors soup ≠ [] →
        cardsOf soup = (ruleTitleAnchors soup, "productCardTitle")) ∧
      (ruleCards soup = [] → ruleTitleAnchors soup = [] → ruleGenericAnchors soup ≠ [] →
        cardsOf soup = (ruleGenericAnchors soup, "generic-anchor")) ∧
      (ruleCards soup = [] → ruleTitleAnchors soup = [] → ruleGenericAnchors soup = [] →
        cardsOf soup = ([], "none")) ∧
      (1 ≤ max_results →
        parse_product_data soup max_results =
          ((cardsOf soup).1.filterMap (extractCard (cardsOf soup).2)).take max_results) ∧
      List.Sublist (ruleCards soup) (descNodes soup) ∧
      List.Sublist (ruleGenericAnchors soup) (descNodes soup) := by
  have isEmpty_false : ∀ {α : Type} {l : List α}, l ≠ [] → l.isEmpty = false := by
    intro α l h
    rw [Bool.eq_false_iff, Ne, List.isEmpty_iff]
    exact h
  refine ⟨?_, ?_, ?_, ?_, ?_, ?_, ?_⟩
  · intro h1
    simp [cardsOf, isEmpty_false h1]
  · intro h1 h2
    simp [cardsOf, h1, isEmpty_false h2]
  · intro h1 h2 h3
    simp [cardsOf, h1, h2, isEmpty_false h3]
  · intro h1 h2 h3
    simp [cardsOf, h1, h2, h3]
  · intro hmax
    unfold parse_product_data
    exact collectUpTo_eq_take _ _ _ hmax
  · exact List.filter_sublist _
  · exact List.filter_sublist _

/-- Closed instance of the amended C6 at the demo page (rule one wins). -/
theorem parse_rule_cascade_and_cap_witness :
    cardsOf demoCardSoup = (ruleCards demoCardSoup, "data-test-productCard") :=
  (parse_rule_cascade_and_cap demoCardSoup (MAX_RESULTS_PER_ITEM * 2)).1
    (List.ne_nil_of_length_pos (by decide))

/-- C6 counterexample: on a page where the title-marker fallback fires
and the two matched anchors are nested, the extractor emits the inner
anchor (document-order position after the outer one) first: the
candidate list is not in document order.  The href streams exhibit the
inversion: the document-order anchor hrefs are outer-then-inner, the
produced records are inner-then-outer. -/
theorem parse_document_order_violation :
    (cardsOf nestedSoup).2 = "productCardTitle" ∧
      (parse_product_data nestedSoup (MAX_RESULTS_PER_ITEM * 2)).map (fun r => r.url) =
        [BASE_URL ++ "/i/inner/", BASE_URL ++ "/i/outer/"] ∧
      (descNodes nestedSoup).filterMap (fun n => attrOf n "href") =
        ["/i/outer/", "/i/inner/"] :=
  ⟨by decide, by decide, by decide⟩

/-! ### The Playwright retry loop -/

theorem pwStep_starts_nav (beh : AttemptBehavior) (first : Bool) (h : Option String) :
    (pwStep beh first h).2.2.head? =
      some (if first then PwEvent.navigate else PwEvent.reload) := by
  unfold pwStep
  dsimp only
  split
  · rfl
  · split
    · rfl
    · split <;> rfl

theorem pwStep_challenge {beh : AttemptBehavior} (hnav : beh.navOk = true)
    (hch : challengeDetected beh.content1 = true) (first : Bool) (h : Option String) :
    pwStep beh first h =
      (none, false,
        [if first then PwEvent.navigate else PwEvent.reload, PwEvent.dwell,
          PwEvent.challengePause]) := by
  unfold pwStep
  rw [hnav]
  dsimp only
  rw [hch]
  rfl

theorem pwRunAux_length (b : Nat → AttemptBehavior) :
    ∀ (fuel attempt : Nat) (h : Option String),
      (pwRunAux b fuel attempt h).2.length ≤ fuel := by
  intro fuel
  induction fuel with
  | zero => intro attempt h; simp [pwRunAux]
  | succ n ih =>
      intro attempt h
      rw [pwRunAux]
      dsimp only
      split
      · simp
      · simpa using Nat.succ_le_succ (ih (attempt + 1) _)

theorem pwRunAux_all_challenged (b : Nat → AttemptBehavior) :
    ∀ (fuel attempt : Nat) (h : Option String), 1 ≤ fuel →
      (∀ i, attempt ≤ i → i < attempt + fuel →
        (b i).navOk = true ∧ challengeDetected (b i).content1 = true) →
      (pwRunAux b fuel attempt h).1 = none ∧
        (pwRunAux b fuel attempt h).2.length = fuel := by
  intro fuel
  induction fuel with
  | zero => intro attempt h hf; omega
  | succ n ih =>
      intro attempt h _ hch
      have hstep := pwStep_challenge (hch attempt (le_refl _) (by omega)).1
        (hch attempt (le_refl _) (by omega)).2 (attempt == 1) h
      rw [pwRunAux, hstep]
      dsimp only
      cases n with
      | zero => simp [pwRunAux]
      | succ m =>
          have := ih (attempt + 1) none (by omega)
            (fun i hi1 hi2 => hch i (by omega) (by omega))
          simp [this.1, this.2]

theorem pwRunAux_tail_reload (b : Nat → AttemptBehavior) :
    ∀ (fuel attempt : Nat) (h : Option String), 2 ≤ attempt →
      ∀ evs ∈ (pwRunAux b fuel attempt h).2, evs.head? = some PwEvent.reload := by
  intro fuel
  induction fuel with
  | zero => intro attempt h _ evs hevs; simp [pwRunAux] at hevs
  | succ n ih =>
      intro attempt h hatt evs hevs
      have hfirst : (attempt == 1) = false := by
        rw [beq_eq_false_iff_ne]
        omega
      have hnav := pwStep_starts_nav (b attempt) false h
      rw [if_neg (by simp)] at hnav
      rw [pwRunAux] at hevs
      dsimp only at hevs
      split at hevs
      · rcases List.mem_singleton.mp hevs with rfl
        rw [hfirst]
        exact hnav
      · rcases List.mem_cons.mp hevs with rfl | hevs
        · rw [hfirst]
          exact hnav
        · exact ih (attempt + 1) _ (by omega) evs hevs

theorem pwRunAux_head_nav (b : Nat → AttemptBehavior) (fuel : Nat) (h : Option String)
    (hf : 1 ≤ fuel) :
    ∀ evs, (pwRunAux b fuel 1 h).2.head? = some evs → evs.head? = some PwEvent.navigate := by
  intro evs hevs
  cases fuel with
  | zero => omega
  | succ n =>
      have hnav := pwStep_starts_nav (b 1) (1 == 1) h
      rw [pwRunAux] at hevs
      dsimp only at hevs
      split at hevs
      · rw [List.head?_cons] at hevs
        rcases Option.some.inj hevs with rfl
        simpa using hnav
      · rw [List.head?_cons] at hevs
        rcases Option.some.inj hevs with rfl
        simpa using hnav

/-- C8: the browser-rendering fetch makes at most six attempts; on every
attempt where the case-insensitive challenge scan fires, the captured
content is discarded (the html state becomes none), the fixed cooldown
pause is taken and the loop continues without breaking; navigation is
fresh only on the first attempt and a reload on every later one; and
when every attempt is challenged the loop exhausts all six attempts and
returns none — no content — so the caller falls through to the next
fetch strategy. -/
theorem playwright_retry_loop_behaviour (b : Nat → AttemptBehavior) :
    (fetch_html_with_playwright b).2.length ≤ 6 ∧
      (∀ (beh : AttemptBehavior) (first : Bool) (h : Option String),
        beh.navOk = true → challengeDetected beh.content1 = true →
        pwStep beh first h =
          (none, false,
            [if first then PwEvent.navigate else PwEvent.reload, PwEvent.dwell,
              PwEvent.challengePause])) ∧
      ((∀ i, 1 ≤ i → i ≤ 6 →
          (b i).navOk = true ∧ challengeDetected (b i).content1 = true) →
        (fetch_html_with_playwright b).1 = none ∧
          (fetch_html_with_playwright b).2.length = 6) ∧
      (∀ evs ∈ (fetch_html_with_playwright b).2.tail,
        evs.head? = some PwEvent.reload) ∧
      (∀ evs, (fetch_html_with_playwright b).2.head? = some evs →
        evs.head? = some PwEvent.navigate) := by
  refine ⟨pwRunAux_length b 6 1 none, ?_, ?_, ?_, pwRunAux_head_nav b 6 none (by omega)⟩
  · intro beh first h hnav hch
    exact pwStep_challenge hnav hch first h
  · intro hch
    exact pwRunAux_all_challenged b 6 1 none (by omega)
      (fun i hi1 hi2 => hch i hi1 (by omega))
  · intro evs hevs
    unfold fetch_html_with_playwright at hevs
    rw [pwRunAux] at hevs
    dsimp only at hevs
    split at hevs
    · simp at hevs
    · rw [List.tail_cons] at hevs
      exact pwRunAux_tail_reload b 5 2 _ (by omega) evs hevs

def challengedBehavior : AttemptBehavior :=
  { navOk := true, content1 := some "__cf_chl_jschl_tk__ = 1", cardVisible := false,
    titleVisible := false, content2 := none }

/-- Closed instance of C8: six challenged attempts, no content
returned. -/
theorem playwright_retry_loop_behaviour_witness :
    (fetch_html_with_playwright (fun _ => challengedBehavior)).1 = none :=
  ((playwright_retry_loop_behaviour (fun _ => challengedBehavior)).2.2.1
    (fun _ _ _ => ⟨rfl, by decide⟩)).1
